import Mathlib

/-
  Verification development for the `crypton` in-process task scheduler
  (src/modules/scheduler/scheduler.service.ts and its NestJS wiring).

  The scheduler runs on a single-threaded cooperative (JS event-loop)
  runtime: every stretch of code between two suspension points executes
  atomically.  We embed it as a state machine whose steps are exactly
  those atomic stretches:

  * `Scheduler.enqueue`      — the whole synchronous body of `enqueue`
                               (it contains no `await`);
  * `Scheduler.processQueue` — the synchronous dispatch loop, including
                               the synchronous prefix of `executeTask`
                               up to `await this.executeWithRetry`;
  * `Scheduler.completeTask` — the resumption of `executeTask` after the
                               task body (with its retry loop) finishes:
                               resolve/reject, slot release, re-dispatch;
  * `Scheduler.finallyDelete`— the microtask installed by
                               `taskPromise.finally(...)`, which deletes
                               the admission-map entry after the promise
                               settles;
  * `Scheduler.shutdownStep` — the synchronous prefix of `shutdown()`
                               (flag flip + queue drain + counters); the
                               remaining poll loop only waits for
                               `runningTasksCount = 0`.

  A task body is opaque to the scheduler (the scheduler only observes
  its completion), so the trace model carries task identity (a fresh
  future id per admission) and key, and treats the body's outcome as a
  parameter of the completion step.  The retry loop `executeWithRetry` /
  `calculateRetryDelay`, which runs inside the opaque body, is embedded
  separately below as a pure function, and the `{...defaults, ...config}`
  merge is embedded with an explicit absent/undefined/value distinction
  mirroring JavaScript object spread.

  Ghost fields (`admissionLog`, `invoked`, `drainedLog`) record the
  admission order, the dispatch order and the ids drained by shutdown;
  they are write-only bookkeeping and never influence control flow.
-/

namespace Scheduler

/-- The `SchedulerStats` record of `scheduler.types.ts`. -/
structure SchedulerStats where
  enqueued : Nat
  running : Nat
  completed : Nat
  deduplicated : Nat
  retried : Nat
  failed : Nat
  cancelled : Nat
  pending : Nat
deriving Repr, DecidableEq

/-- Settlement state of a caller-visible promise (`taskPromise`). -/
inductive FutureState where
  | pending
  | fulfilled
  | rejectedFailure
  | rejectedCancelled
deriving Repr, DecidableEq

/-- A queued task as the dispatch loop sees it: the future id stands for
the `resolve`/`reject` pair captured by the queued thunk, `key` is the
dedup key.  The task function itself is opaque to the scheduler. -/
structure QueuedTask where
  id : Nat
  key : String
deriving Repr, DecidableEq

/-- The mutable fields of `SchedulerService`, plus the futures created by
`enqueue` and ghost logs recording admission/dispatch/drain order. -/
structure SchedulerState where
  concurrencyLimit : Nat
  runningTasksCount : Nat
  pendingQueue : List QueuedTask
  runningTasks : List (String × Nat)
  isShuttingDown : Bool
  stats : SchedulerStats
  futures : List (Nat × FutureState)
  executing : List QueuedTask
  nextId : Nat
  admissionLog : List Nat
  invoked : List Nat
  drainedLog : List Nat
deriving Repr, DecidableEq

/-- Lookup in the admission map (`this.runningTasks.get(key)`). -/
def lookupKey : List (String × Nat) → String → Option Nat
  | [], _ => none
  | (k, v) :: rest, key => if k = key then some v else lookupKey rest key

/-- Deletion from the admission map (`this.runningTasks.delete(key)`). -/
def eraseKey : List (String × Nat) → String → List (String × Nat)
  | [], _ => []
  | (k, v) :: rest, key => if k = key then rest else (k, v) :: eraseKey rest key

/-- State of the future with the given id, if it exists. -/
def lookupFuture : List (Nat × FutureState) → Nat → Option FutureState
  | [], _ => none
  | (i, st) :: rest, fid => if i = fid then some st else lookupFuture rest fid

/-- Settling a promise: calling `resolve`/`reject` only has an effect
while the promise is still pending. -/
def settleFuture (fid : Nat) (st : FutureState) :
    List (Nat × FutureState) → List (Nat × FutureState) :=
  List.map fun p => if p.1 = fid ∧ p.2 = FutureState.pending then (fid, st) else p

/-- The synchronous prefix of `executeTask` (lines 183-199): the shutdown
check rejecting with the cancellation error, otherwise the running-count
increment and the start of the task body. -/
def startTask (s : SchedulerState) (t : QueuedTask) : SchedulerState :=
  if s.isShuttingDown then
    { s with
      stats := { s.stats with cancelled := s.stats.cancelled + 1 },
      futures := settleFuture t.id FutureState.rejectedCancelled s.futures }
  else
    { s with
      runningTasksCount := s.runningTasksCount + 1,
      stats := { s.stats with running := s.runningTasksCount + 1 },
      executing := s.executing ++ [t],
      invoked := s.invoked ++ [t.id] }

/-- The `while` loop of `processQueue`: while there is capacity and the
queue is non-empty, shift the head, refresh `stats.pending`, and run the
task executor.  The list argument is the current pending queue (kept
equal to `s.pendingQueue` at every call). -/
def processQueueGo : List QueuedTask → SchedulerState → SchedulerState
  | [], s => s
  | t :: rest, s =>
    if s.runningTasksCount < s.concurrencyLimit then
      processQueueGo rest
        (startTask
          { s with
            pendingQueue := rest,
            stats := { s.stats with pending := rest.length } } t)
    else s

/-- `processQueue` (lines 159-171). -/
def processQueue (s : SchedulerState) : SchedulerState :=
  processQueueGo s.pendingQueue s

/-- Result returned to the caller of `enqueue`. -/
inductive EnqueueResult where
  | rejectedShutdown
  | dedup (fid : Nat)
  | admitted (fid : Nat)
deriving Repr, DecidableEq

/-- The state changes lines 110-135 perform on a fresh admission,
before the dispatch loop runs: bump `enqueued`, build the `QueuedTask`
(its future gets the fresh id `s.nextId`), push it onto the queue,
refresh `stats.pending`, create the pending future and log the
admission. -/
def admittedState (s : SchedulerState) (key : String) : SchedulerState :=
  { s with
    stats := { s.stats with
               enqueued := s.stats.enqueued + 1,
               pending := (s.pendingQueue ++ [QueuedTask.mk s.nextId key]).length },
    pendingQueue := s.pendingQueue ++ [QueuedTask.mk s.nextId key],
    futures := s.futures ++ [(s.nextId, FutureState.pending)],
    nextId := s.nextId + 1,
    admissionLog := s.admissionLog ++ [s.nextId] }

/-- The synchronous body of `enqueue` (lines 91-150): shutdown check,
dedup check, admission (counter, new future, queue push, dispatch via
`processQueue` — called inside the promise executor, hence before the
`runningTasks.set` on line 138 — then admission-map registration). -/
def enqueue (s : SchedulerState) (key : String) :
    SchedulerState × EnqueueResult :=
  if s.isShuttingDown then
    ({ s with stats := { s.stats with cancelled := s.stats.cancelled + 1 } },
     EnqueueResult.rejectedShutdown)
  else
    match lookupKey s.runningTasks key with
    | some fid =>
      ({ s with
         stats := { s.stats with deduplicated := s.stats.deduplicated + 1 } },
       EnqueueResult.dedup fid)
    | none =>
      let s2 := processQueue (admittedState s key)
      ({ s2 with runningTasks := (key, s.nextId) :: s2.runningTasks },
       EnqueueResult.admitted s.nextId)

/-- Lines 201-213 of `executeTask`: on success bump `completed` and
resolve the caller's future; on failure bump `failed` and reject it.
`ok` is the outcome of the task body (the whole retry loop). -/
def settledState (s : SchedulerState) (t : QueuedTask) (ok : Bool) :
    SchedulerState :=
  if ok then
    { s with
      stats := { s.stats with completed := s.stats.completed + 1 },
      futures := settleFuture t.id FutureState.fulfilled s.futures }
  else
    { s with
      stats := { s.stats with failed := s.stats.failed + 1 },
      futures := settleFuture t.id FutureState.rejectedFailure s.futures }

/-- Lines 214-218 of `executeTask` (`finally`): release the slot. -/
def releasedState (s : SchedulerState) (t : QueuedTask) (ok : Bool) :
    SchedulerState :=
  { settledState s t ok with
    executing := (settledState s t ok).executing.erase t,
    runningTasksCount := (settledState s t ok).runningTasksCount - 1,
    stats := { (settledState s t ok).stats with
               running := (settledState s t ok).runningTasksCount - 1 } }

/-- The resumption of `executeTask` after the task body finished (lines
201-221): settle the caller's future, bump `completed`/`failed`, release
the slot and re-run the dispatch loop. -/
def completeTask (s : SchedulerState) (t : QueuedTask) (ok : Bool) :
    SchedulerState :=
  processQueue (releasedState s t ok)

/-- The microtask installed by `taskPromise.finally(...)` (lines
141-147): delete the admission-map entry for `key`. -/
def finallyDelete (s : SchedulerState) (key : String) : SchedulerState :=
  { s with runningTasks := eraseKey s.runningTasks key }

/-- The synchronous prefix of `shutdown()` (lines 345-357): set the flag,
replace the pending queue by `[]`, add the drained count to `cancelled`
and zero `stats.pending`.  Note that the drained thunks are merely
discarded: their `reject` callbacks, reachable only through the dropped
closures, are never called. -/
def shutdownStep (s : SchedulerState) : SchedulerState :=
  { s with
    isShuttingDown := true,
    pendingQueue := [],
    stats := { s.stats with
               cancelled := s.stats.cancelled + s.pendingQueue.length,
               pending := 0 },
    drainedLog := s.drainedLog ++ s.pendingQueue.map QueuedTask.id }

/-- One atomic stretch of scheduler execution.  `complete` requires the
finishing task to actually be mid-execution; `finallyHook` can only fire
once the corresponding future has settled. -/
inductive Step : SchedulerState → SchedulerState → Prop
  | enqueue {s : SchedulerState} (key : String) :
      Step s (Scheduler.enqueue s key).1
  | complete {s : SchedulerState} (t : QueuedTask) (ok : Bool)
      (h : t ∈ s.executing) :
      Step s (completeTask s t ok)
  | finallyHook {s : SchedulerState} (key : String) (fid : Nat)
      (hm : lookupKey s.runningTasks key = some fid)
      (hs : lookupFuture s.futures fid ≠ some FutureState.pending) :
      Step s (finallyDelete s key)
  | shutdown {s : SchedulerState} :
      Step s (shutdownStep s)

/-- Reachability along scheduler steps. -/
inductive Reach : SchedulerState → SchedulerState → Prop
  | refl (s : SchedulerState) : Reach s s
  | tail {s t u : SchedulerState} : Reach s t → Step t u → Reach s u

/-- A freshly constructed `SchedulerService` with the given limit. -/
def initState (limit : Nat) : SchedulerState where
  concurrencyLimit := limit
  runningTasksCount := 0
  pendingQueue := []
  runningTasks := []
  isShuttingDown := false
  stats := ⟨0, 0, 0, 0, 0, 0, 0, 0⟩
  futures := []
  executing := []
  nextId := 0
  admissionLog := []
  invoked := []
  drainedLog := []

/-- The `SchedulerConfig` of `scheduler.types.ts`. -/
structure SchedulerConfig where
  concurrencyLimit : Nat
deriving Repr, DecidableEq

/-- The constructor (lines 65-70): `config || { concurrencyLimit: 10 }`. -/
def mkSchedulerService (config : Option SchedulerConfig) : SchedulerState :=
  initState ((config.getD ⟨10⟩).concurrencyLimit)

/-- The provider wired by `SchedulerModule`:
`new SchedulerService({ concurrencyLimit: 10 })`. -/
def schedulerModuleService : SchedulerState :=
  mkSchedulerService (some ⟨10⟩)

/-! ## Retry loop and backoff (`executeWithRetry`, `calculateRetryDelay`)

The retry loop runs inside a single task's execution path; its only
interactions with the rest of the scheduler are the `stats.retried`
increments and the slept delays, so it is embedded as a pure function.
The task function is represented by its outcome at each attempt number
(1-indexed); `Math.random()` is an oracle giving the draw used for the
delay computed after each failed attempt. -/

/-- The runtime shape of `Required<TaskConfig>` on the happy path, where
every field is an actual number. -/
structure ResolvedTaskConfig where
  maxRetries : Nat
  baseDelay : ℚ
  jitter : ℚ
deriving Repr, DecidableEq

/-- `calculateRetryDelay` (lines 300-316).  `rand` is the value returned
by `Math.random()`; the source computes
`round(max(0, baseDelay * 2^attempt + (rand*2 - 1) * (baseDelay * 2^attempt * jitter)))`. -/
def calculateRetryDelay (attempt : Nat) (config : ResolvedTaskConfig)
    (rand : ℚ) : ℤ :=
  let exponentialDelay : ℚ := config.baseDelay * 2 ^ attempt
  let jitterAmount : ℚ := exponentialDelay * config.jitter
  let randomJitter : ℚ := (rand * 2 - 1) * jitterAmount
  let finalDelay : ℚ := max 0 (exponentialDelay + randomJitter)
  round finalDelay

/-- Observable trace of one run of the retry loop: the value or error it
finishes with, how many times the task function was invoked, how many
times `stats.retried` was incremented, and the delays slept in order. -/
structure RetryTrace (α : Type) where
  result : Except String α
  invocations : Nat
  retried : Nat
  delays : List ℤ
deriving Repr

/-- The `for` loop of `executeWithRetry` (lines 246-275).  `attempt` is
the 1-indexed attempt about to run; `rem` is the number of attempts
still allowed after it (`maxAttempts - attempt`).  With `rem = 0` this
is the final attempt: a failure is re-thrown with no retry and no
delay.  Otherwise a failure increments `retried`, sleeps
`delayFn attempt` and proceeds with attempt `attempt + 1`. -/
def retryGo (task : Nat → Except String α) (delayFn : Nat → ℤ) :
    Nat → Nat → RetryTrace α
  | attempt, 0 =>
    match task attempt with
    | Except.ok v => ⟨Except.ok v, 1, 0, []⟩
    | Except.error e => ⟨Except.error e, 1, 0, []⟩
  | attempt, rem + 1 =>
    match task attempt with
    | Except.ok v => ⟨Except.ok v, 1, 0, []⟩
    | Except.error _ =>
      let t := retryGo task delayFn (attempt + 1) rem
      ⟨t.result, t.invocations + 1, t.retried + 1, delayFn attempt :: t.delays⟩

/-- `executeWithRetry` (lines 238-279): `maxAttempts = maxRetries + 1`,
attempts run from 1, and the delay slept after failed attempt `n` is
`calculateRetryDelay(n - 1, config)` with a fresh `Math.random()` draw
(`rand n`). -/
def executeWithRetry (task : Nat → Except String α)
    (config : ResolvedTaskConfig) (rand : Nat → ℚ) : RetryTrace α :=
  retryGo task
    (fun attempt => calculateRetryDelay (attempt - 1) config (rand attempt))
    1 config.maxRetries

/-! ## Config merge (`{...this.defaultTaskConfig, ...config}`)

JavaScript object spread copies every own enumerable property of the
source object, *including properties whose value is `undefined`*.  The
embedding therefore distinguishes, for each optional field of the
caller's `TaskConfig`, between the field being absent from the object
and the field being present with value `undefined`. -/

/-- A JavaScript number-or-undefined value. -/
inductive JsNum where
  | undef
  | val (q : ℚ)
deriving Repr, DecidableEq

/-- The caller's `config` object: each field may be absent (`none`) or
present with a possibly-`undefined` value. -/
structure TaskConfigArg where
  maxRetries : Option JsNum := none
  baseDelay : Option JsNum := none
  jitter : Option JsNum := none
deriving Repr, DecidableEq

/-- The runtime shape of the merged config.  It is *declared*
`Required<TaskConfig>` in the source, but a field can still hold
`undefined` at runtime. -/
structure MergedTaskConfig where
  maxRetries : JsNum
  baseDelay : JsNum
  jitter : JsNum
deriving Repr, DecidableEq

/-- `this.defaultTaskConfig` (lines 54-58). -/
def defaultTaskConfig : MergedTaskConfig :=
  ⟨JsNum.val 3, JsNum.val 1000, JsNum.val (1 / 5)⟩

/-- The merge at lines 114-117: `{...this.defaultTaskConfig, ...config}`.
Spreading an `undefined` config contributes nothing; otherwise each
field *present* on `config` overrides the default — even when its value
is `undefined`. -/
def mergeTaskConfig (config : Option TaskConfigArg) : MergedTaskConfig :=
  match config with
  | none => defaultTaskConfig
  | some c =>
    { maxRetries := c.maxRetries.getD defaultTaskConfig.maxRetries
      baseDelay := c.baseDelay.getD defaultTaskConfig.baseDelay
      jitter := c.jitter.getD defaultTaskConfig.jitter }

/-! ## Basic preservation lemmas -/

lemma startTask_concurrencyLimit (s : SchedulerState) (t : QueuedTask) :
    (startTask s t).concurrencyLimit = s.concurrencyLimit := by
  unfold startTask; split <;> rfl

lemma startTask_isShuttingDown (s : SchedulerState) (t : QueuedTask) :
    (startTask s t).isShuttingDown = s.isShuttingDown := by
  unfold startTask; split <;> rfl

lemma startTask_runningTasks (s : SchedulerState) (t : QueuedTask) :
    (startTask s t).runningTasks = s.runningTasks := by
  unfold startTask; split <;> rfl

lemma startTask_pendingQueue (s : SchedulerState) (t : QueuedTask) :
    (startTask s t).pendingQueue = s.pendingQueue := by
  unfold startTask; split <;> rfl

lemma startTask_drainedLog (s : SchedulerState) (t : QueuedTask) :
    (startTask s t).drainedLog = s.drainedLog := by
  unfold startTask; split <;> rfl

lemma startTask_admissionLog (s : SchedulerState) (t : QueuedTask) :
    (startTask s t).admissionLog = s.admissionLog := by
  unfold startTask; split <;> rfl

lemma processQueueGo_concurrencyLimit (q : List QueuedTask) (s : SchedulerState) :
    (processQueueGo q s).concurrencyLimit = s.concurrencyLimit := by
  induction q generalizing s with
  | nil => rfl
  | cons t rest ih =>
    unfold processQueueGo
    split
    · rw [ih, startTask_concurrencyLimit]
    · rfl

lemma processQueueGo_isShuttingDown (q : List QueuedTask) (s : SchedulerState) :
    (processQueueGo q s).isShuttingDown = s.isShuttingDown := by
  induction q generalizing s with
  | nil => rfl
  | cons t rest ih =>
    unfold processQueueGo
    split
    · rw [ih, startTask_isShuttingDown]
    · rfl

lemma processQueueGo_runningTasks (q : List QueuedTask) (s : SchedulerState) :
    (processQueueGo q s).runningTasks = s.runningTasks := by
  induction q generalizing s with
  | nil => rfl
  | cons t rest ih =>
    unfold processQueueGo
    split
    · rw [ih, startTask_runningTasks]
    · rfl

lemma processQueueGo_drainedLog (q : List QueuedTask) (s : SchedulerState) :
    (processQueueGo q s).drainedLog = s.drainedLog := by
  induction q generalizing s with
  | nil => rfl
  | cons t rest ih =>
    unfold processQueueGo
    split
    · rw [ih, startTask_drainedLog]
    · rfl

lemma processQueueGo_admissionLog (q : List QueuedTask) (s : SchedulerState) :
    (processQueueGo q s).admissionLog = s.admissionLog := by
  induction q generalizing s with
  | nil => rfl
  | cons t rest ih =>
    unfold processQueueGo
    split
    · rw [ih, startTask_admissionLog]
    · rfl

lemma processQueueGo_running_le (q : List QueuedTask) (s : SchedulerState)
    (h : s.runningTasksCount ≤ s.concurrencyLimit) :
    (processQueueGo q s).runningTasksCount ≤
      (processQueueGo q s).concurrencyLimit := by
  induction q generalizing s with
  | nil => exact h
  | cons t rest ih =>
    unfold processQueueGo
    split
    · next hlt =>
      apply ih
      unfold startTask
      split
      · simpa using h
      · simpa using hlt
    · exact h

lemma processQueueGo_running_sync (q : List QueuedTask) (s : SchedulerState)
    (h : s.stats.running = s.runningTasksCount) :
    (processQueueGo q s).stats.running =
      (processQueueGo q s).runningTasksCount := by
  induction q generalizing s with
  | nil => exact h
  | cons t rest ih =>
    unfold processQueueGo
    split
    · apply ih
      unfold startTask
      split
      · simpa using h
      · simp
    · exact h

lemma processQueueGo_ghost (q : List QueuedTask) (s : SchedulerState)
    (hq : s.pendingQueue = q) (hsd : s.isShuttingDown = false) :
    (processQueueGo q s).invoked ++
        (processQueueGo q s).pendingQueue.map QueuedTask.id
      = s.invoked ++ q.map QueuedTask.id := by
  induction q generalizing s with
  | nil => simp [processQueueGo, hq]
  | cons t rest ih =>
    unfold processQueueGo
    split
    · rw [ih _ (by simp [startTask_pendingQueue]) (by simp [startTask_isShuttingDown, hsd])]
      simp [startTask, hsd]
    · rw [hq]

lemma enqueue_of_shutdown (s : SchedulerState) (key : String)
    (hsd : s.isShuttingDown = true) :
    enqueue s key =
      ({ s with stats := { s.stats with cancelled := s.stats.cancelled + 1 } },
       EnqueueResult.rejectedShutdown) := by
  unfold enqueue
  rw [if_pos hsd]

lemma enqueue_of_dedup (s : SchedulerState) (key : String) (fid : Nat)
    (hsd : s.isShuttingDown = false)
    (hlk : lookupKey s.runningTasks key = some fid) :
    enqueue s key =
      ({ s with
         stats := { s.stats with deduplicated := s.stats.deduplicated + 1 } },
       EnqueueResult.dedup fid) := by
  unfold enqueue
  rw [if_neg (by rw [hsd]; exact Bool.false_ne_true), hlk]

lemma enqueue_of_fresh (s : SchedulerState) (key : String)
    (hsd : s.isShuttingDown = false)
    (hlk : lookupKey s.runningTasks key = none) :
    enqueue s key =
      ({ processQueue (admittedState s key) with
         runningTasks :=
           (key, s.nextId) :: (processQueue (admittedState s key)).runningTasks },
       EnqueueResult.admitted s.nextId) := by
  unfold enqueue
  rw [if_neg (by rw [hsd]; exact Bool.false_ne_true), hlk]

lemma settleFuture_cons (i : Nat) (st : FutureState) (a : Nat)
    (b : FutureState) (rest : List (Nat × FutureState)) :
    settleFuture i st ((a, b) :: rest) =
      (if a = i ∧ b = FutureState.pending then (i, st) else (a, b)) ::
        settleFuture i st rest := rfl

lemma lookupFuture_settle_ne (fs : List (Nat × FutureState)) (i fid : Nat)
    (st : FutureState) (h : i ≠ fid) :
    lookupFuture (settleFuture i st fs) fid = lookupFuture fs fid := by
  induction fs with
  | nil => rfl
  | cons p rest ih =>
    obtain ⟨a, b⟩ := p
    rw [settleFuture_cons]
    by_cases hp : a = i ∧ b = FutureState.pending
    · rw [if_pos hp]
      have haf : ¬ a = fid := by rw [hp.1]; exact h
      simp only [lookupFuture]
      rw [if_neg h, ih, if_neg haf]
    · rw [if_neg hp]
      simp only [lookupFuture]
      rw [ih]

lemma lookupKey_eraseKey_ne (m : List (String × Nat)) (k k' : String)
    (h : k' ≠ k) :
    lookupKey (eraseKey m k') k = lookupKey m k := by
  induction m with
  | nil => rfl
  | cons p rest ih =>
    obtain ⟨a, b⟩ := p
    simp only [eraseKey]
    by_cases hak : a = k'
    · rw [if_pos hak]
      have hne : ¬ a = k := by rw [hak]; exact h
      simp only [lookupKey]
      rw [if_neg hne]
    · rw [if_neg hak]
      simp only [lookupKey]
      by_cases hk : a = k
      · rw [if_pos hk, if_pos hk]
      · rw [if_neg hk, if_neg hk, ih]

lemma settledState_fields (s : SchedulerState) (t : QueuedTask) (ok : Bool) :
    (settledState s t ok).concurrencyLimit = s.concurrencyLimit ∧
    (settledState s t ok).runningTasksCount = s.runningTasksCount ∧
    (settledState s t ok).pendingQueue = s.pendingQueue ∧
    (settledState s t ok).runningTasks = s.runningTasks ∧
    (settledState s t ok).isShuttingDown = s.isShuttingDown ∧
    (settledState s t ok).stats.running = s.stats.running ∧
    (settledState s t ok).stats.pending = s.stats.pending ∧
    (settledState s t ok).executing = s.executing ∧
    (settledState s t ok).invoked = s.invoked ∧
    (settledState s t ok).admissionLog = s.admissionLog ∧
    (settledState s t ok).drainedLog = s.drainedLog := by
  unfold settledState
  split <;>
    exact ⟨rfl, rfl, rfl, rfl, rfl, rfl, rfl, rfl, rfl, rfl, rfl⟩

lemma releasedState_fields (s : SchedulerState) (t : QueuedTask) (ok : Bool) :
    (releasedState s t ok).concurrencyLimit = s.concurrencyLimit ∧
    (releasedState s t ok).runningTasksCount = s.runningTasksCount - 1 ∧
    (releasedState s t ok).pendingQueue = s.pendingQueue ∧
    (releasedState s t ok).runningTasks = s.runningTasks ∧
    (releasedState s t ok).isShuttingDown = s.isShuttingDown ∧
    (releasedState s t ok).stats.running = s.runningTasksCount - 1 ∧
    (releasedState s t ok).stats.pending = s.stats.pending ∧
    (releasedState s t ok).invoked = s.invoked ∧
    (releasedState s t ok).admissionLog = s.admissionLog ∧
    (releasedState s t ok).drainedLog = s.drainedLog ∧
    (releasedState s t ok).executing = s.executing.erase t := by
  obtain ⟨g1, g2, g3, g4, g5, g6, g7, g8, g9, g10, g11⟩ :=
    settledState_fields s t ok
  refine ⟨g1, ?_, g3, g4, g5, ?_, g7, g9, g10, g11, ?_⟩
  · show (settledState s t ok).runningTasksCount - 1 = s.runningTasksCount - 1
    rw [g2]
  · show (settledState s t ok).runningTasksCount - 1 = s.runningTasksCount - 1
    rw [g2]
  · show ((settledState s t ok).executing).erase t = s.executing.erase t
    rw [g8]

/-! ## The main inductive invariant -/

/-- States the scheduler actually reaches satisfy: the concurrency gate,
`stats.running` mirroring `runningTasksCount`, an empty queue once
shutdown has begun, no drained tasks before shutdown, and the ghost
bookkeeping equation: the admission log is exactly the dispatch log,
then the drained ids, then the ids still queued — in that order. -/
def Good (s : SchedulerState) : Prop :=
  s.runningTasksCount ≤ s.concurrencyLimit ∧
  s.stats.running = s.runningTasksCount ∧
  (s.isShuttingDown = true → s.pendingQueue = [] ∧ s.stats.pending = 0) ∧
  (s.isShuttingDown = false → s.drainedLog = []) ∧
  s.admissionLog =
    s.invoked ++ s.drainedLog ++ s.pendingQueue.map QueuedTask.id

lemma good_initState (limit : Nat) : Good (initState limit) := by
  refine ⟨?_, rfl, ?_, ?_, rfl⟩ <;> simp [initState]

lemma good_step {s s' : SchedulerState} (hg : Good s) (hstep : Step s s') :
    Good s' := by
  obtain ⟨h1, h2, h3, h4, h5⟩ := hg
  cases hstep with
  | enqueue key =>
    by_cases hsd : s.isShuttingDown
    · rw [enqueue_of_shutdown s key hsd]
      exact ⟨h1, h2, h3, h4, h5⟩
    · simp only [Bool.not_eq_true] at hsd
      rcases hlk : lookupKey s.runningTasks key with _ | fid
      · -- fresh admission
        rw [enqueue_of_fresh s key hsd hlk]
        have ha_sd : (admittedState s key).isShuttingDown = false := hsd
        have hghost := processQueueGo_ghost (admittedState s key).pendingQueue
          (admittedState s key) rfl ha_sd
        refine ⟨?_, ?_, ?_, ?_, ?_⟩
        · show (processQueueGo (admittedState s key).pendingQueue
              (admittedState s key)).runningTasksCount ≤
            (processQueueGo (admittedState s key).pendingQueue
              (admittedState s key)).concurrencyLimit
          exact processQueueGo_running_le _ _ h1
        · show (processQueueGo (admittedState s key).pendingQueue
              (admittedState s key)).stats.running =
            (processQueueGo (admittedState s key).pendingQueue
              (admittedState s key)).runningTasksCount
          exact processQueueGo_running_sync _ _ h2
        · intro hcon
          have hcon' : (processQueueGo (admittedState s key).pendingQueue
              (admittedState s key)).isShuttingDown = true := hcon
          rw [processQueueGo_isShuttingDown, ha_sd] at hcon'
          exact absurd hcon' (by decide)
        · intro _
          show (processQueueGo (admittedState s key).pendingQueue
              (admittedState s key)).drainedLog = []
          rw [processQueueGo_drainedLog]
          exact h4 hsd
        · show (processQueueGo (admittedState s key).pendingQueue
              (admittedState s key)).admissionLog =
            (processQueueGo (admittedState s key).pendingQueue
                (admittedState s key)).invoked ++
              (processQueueGo (admittedState s key).pendingQueue
                (admittedState s key)).drainedLog ++
              (processQueueGo (admittedState s key).pendingQueue
                (admittedState s key)).pendingQueue.map QueuedTask.id
          rw [processQueueGo_admissionLog, processQueueGo_drainedLog]
          have hdl : s.drainedLog = [] := h4 hsd
          have hadm : (admittedState s key).admissionLog =
              s.admissionLog ++ [s.nextId] := rfl
          have hadl : (admittedState s key).drainedLog = s.drainedLog := rfl
          rw [hadm, hadl, hdl, List.append_nil]
          have hstep1 : s.admissionLog ++ [s.nextId] =
              (admittedState s key).invoked ++
                (admittedState s key).pendingQueue.map QueuedTask.id := by
            have hinv : (admittedState s key).invoked = s.invoked := rfl
            have hq : (admittedState s key).pendingQueue =
                s.pendingQueue ++ [⟨s.nextId, key⟩] := rfl
            rw [hinv, hq, h5, hdl]
            simp
          rw [hstep1, ← hghost]
      · -- dedup hit
        rw [enqueue_of_dedup s key fid hsd hlk]
        exact ⟨h1, h2, h3, h4, h5⟩
  | complete t ok ht =>
    show Good (processQueue (releasedState s t ok))
    obtain ⟨f1, f2, f3, f4, f5, f6, f7, f8, f9, f10, f11⟩ :=
      releasedState_fields s t ok
    have hgr : Good (releasedState s t ok) := by
      refine ⟨?_, ?_, ?_, ?_, ?_⟩
      · rw [f2, f1]; omega
      · rw [f6, f2]
      · intro hcon
        rw [f5] at hcon
        rw [f3, f7]
        exact h3 hcon
      · intro hcon
        rw [f5] at hcon
        rw [f10]
        exact h4 hcon
      · rw [f9, f8, f10, f3]
        exact h5
    obtain ⟨hg1, hg2, hg3, hg4, hg5⟩ := hgr
    by_cases hsd : s.isShuttingDown
    · have hqnil : (releasedState s t ok).pendingQueue = [] := by
        rw [f3]; exact (h3 hsd).1
      show Good (processQueueGo (releasedState s t ok).pendingQueue
        (releasedState s t ok))
      rw [hqnil]
      exact ⟨hg1, hg2, hg3, hg4, hg5⟩
    · simp only [Bool.not_eq_true] at hsd
      have hsd2 : (releasedState s t ok).isShuttingDown = false := by
        rw [f5]; exact hsd
      refine ⟨?_, ?_, ?_, ?_, ?_⟩
      · exact processQueueGo_running_le _ _ hg1
      · exact processQueueGo_running_sync _ _ hg2
      · intro hcon
        have hcon' : (processQueueGo (releasedState s t ok).pendingQueue
            (releasedState s t ok)).isShuttingDown = true := hcon
        rw [processQueueGo_isShuttingDown, hsd2] at hcon'
        exact absurd hcon' (by decide)
      · intro _
        show (processQueueGo (releasedState s t ok).pendingQueue
          (releasedState s t ok)).drainedLog = []
        rw [processQueueGo_drainedLog, f10]
        exact h4 hsd
      · show (processQueueGo (releasedState s t ok).pendingQueue
            (releasedState s t ok)).admissionLog =
          (processQueueGo (releasedState s t ok).pendingQueue
              (releasedState s t ok)).invoked ++
            (processQueueGo (releasedState s t ok).pendingQueue
              (releasedState s t ok)).drainedLog ++
            (processQueueGo (releasedState s t ok).pendingQueue
              (releasedState s t ok)).pendingQueue.map QueuedTask.id
        rw [processQueueGo_admissionLog, processQueueGo_drainedLog]
        have hgh := processQueueGo_ghost (releasedState s t ok).pendingQueue
          (releasedState s t ok) rfl hsd2
        rw [f9, f10, h4 hsd, List.append_nil]
        have hx : s.admissionLog = (releasedState s t ok).invoked ++
            (releasedState s t ok).pendingQueue.map QueuedTask.id := by
          rw [f8, f3, h5, h4 hsd]
          simp
        rw [hx, ← hgh]
  | finallyHook key fid hm hs =>
    exact ⟨h1, h2, h3, h4, h5⟩
  | shutdown =>
    refine ⟨h1, h2, by simp [shutdownStep], by simp [shutdownStep], ?_⟩
    show s.admissionLog =
      s.invoked ++ (s.drainedLog ++ s.pendingQueue.map QueuedTask.id) ++
        ([] : List QueuedTask).map QueuedTask.id
    rw [h5]; simp

/-! ## Tasks drained by shutdown stay dead

`Dead fid s` says: the scheduler is shutting down and the task behind
future `fid` is neither queued nor executing, its function was never
invoked, and its caller-visible future is still pending.  Every step
preserves this, so such a future can never settle and such a task
function can never run. -/

def Dead (fid : Nat) (s : SchedulerState) : Prop :=
  s.isShuttingDown = true ∧
  (∀ t ∈ s.pendingQueue, t.id ≠ fid) ∧
  (∀ t ∈ s.executing, t.id ≠ fid) ∧
  fid ∉ s.invoked ∧
  lookupFuture s.futures fid = some FutureState.pending

lemma startTask_dead (s : SchedulerState) (t : QueuedTask) (fid : Nat)
    (htid : t.id ≠ fid)
    (hf : lookupFuture s.futures fid = some FutureState.pending)
    (hi : fid ∉ s.invoked)
    (he : ∀ u ∈ s.executing, u.id ≠ fid) :
    lookupFuture (startTask s t).futures fid = some FutureState.pending ∧
    fid ∉ (startTask s t).invoked ∧
    (∀ u ∈ (startTask s t).executing, u.id ≠ fid) := by
  unfold startTask
  split
  · refine ⟨?_, hi, he⟩
    rw [show ({ s with
        stats := { s.stats with cancelled := s.stats.cancelled + 1 },
        futures := settleFuture t.id FutureState.rejectedCancelled s.futures }
          : SchedulerState).futures =
        settleFuture t.id FutureState.rejectedCancelled s.futures from rfl]
    rw [lookupFuture_settle_ne s.futures t.id fid FutureState.rejectedCancelled htid]
    exact hf
  · refine ⟨hf, ?_, ?_⟩
    · intro hmem
      rcases List.mem_append.mp hmem with hmem | hmem
      · exact hi hmem
      · exact htid (List.mem_singleton.mp hmem).symm
    · intro u hu
      rcases List.mem_append.mp hu with hu | hu
      · exact he u hu
      · rw [List.mem_singleton.mp hu]
        exact htid

lemma processQueueGo_dead (q : List QueuedTask) (fid : Nat) :
    ∀ s : SchedulerState,
      (∀ t ∈ q, t.id ≠ fid) →
      s.pendingQueue = q →
      lookupFuture s.futures fid = some FutureState.pending →
      fid ∉ s.invoked →
      (∀ t ∈ s.executing, t.id ≠ fid) →
      lookupFuture (processQueueGo q s).futures fid =
          some FutureState.pending ∧
        fid ∉ (processQueueGo q s).invoked ∧
        (∀ t ∈ (processQueueGo q s).pendingQueue, t.id ≠ fid) ∧
        (∀ t ∈ (processQueueGo q s).executing, t.id ≠ fid) := by
  induction q with
  | nil =>
    intro s _ hqs hf hi he
    refine ⟨hf, hi, ?_, he⟩
    intro t ht
    rw [show (processQueueGo [] s).pendingQueue = s.pendingQueue from rfl,
        hqs] at ht
    exact absurd ht (List.not_mem_nil t)
  | cons t rest ih =>
    intro s hq hqs hf hi he
    have htid : t.id ≠ fid := hq t (List.mem_cons_self t rest)
    have hrest : ∀ u ∈ rest, u.id ≠ fid :=
      fun u hu => hq u (List.mem_cons_of_mem t hu)
    unfold processQueueGo
    split
    · obtain ⟨k1, k2, k3⟩ := startTask_dead
        { s with pendingQueue := rest,
                 stats := { s.stats with pending := rest.length } } t fid
        htid hf hi he
      exact ih _ hrest (by rw [startTask_pendingQueue]) k1 k2 k3
    · refine ⟨hf, hi, ?_, he⟩
      intro u hu
      refine hq u ?_
      rw [← hqs]
      exact hu

lemma dead_step {fid : Nat} {s s' : SchedulerState} (hd : Dead fid s)
    (hstep : Step s s') : Dead fid s' := by
  obtain ⟨d1, d2, d3, d4, d5⟩ := hd
  cases hstep with
  | enqueue key =>
    rw [enqueue_of_shutdown s key d1]
    exact ⟨d1, d2, d3, d4, d5⟩
  | complete t ok ht =>
    show Dead fid (processQueue (releasedState s t ok))
    obtain ⟨f1, f2, f3, f4, f5, f6, f7, f8, f9, f10, f11⟩ :=
      releasedState_fields s t ok
    have htid : t.id ≠ fid := d3 t ht
    have hfut : lookupFuture (releasedState s t ok).futures fid =
        some FutureState.pending := by
      show lookupFuture (settledState s t ok).futures fid = _
      unfold settledState
      split
      · rw [show ({ s with
            stats := { s.stats with completed := s.stats.completed + 1 },
            futures := settleFuture t.id FutureState.fulfilled s.futures }
              : SchedulerState).futures =
            settleFuture t.id FutureState.fulfilled s.futures from rfl]
        rw [lookupFuture_settle_ne s.futures t.id fid FutureState.fulfilled htid]
        exact d5
      · rw [show ({ s with
            stats := { s.stats with failed := s.stats.failed + 1 },
            futures := settleFuture t.id FutureState.rejectedFailure s.futures }
              : SchedulerState).futures =
            settleFuture t.id FutureState.rejectedFailure s.futures from rfl]
        rw [lookupFuture_settle_ne s.futures t.id fid FutureState.rejectedFailure htid]
        exact d5
    have hqr : ∀ u ∈ (releasedState s t ok).pendingQueue, u.id ≠ fid := by
      rw [f3]; exact d2
    have hir : fid ∉ (releasedState s t ok).invoked := by
      rw [f8]; exact d4
    have her : ∀ u ∈ (releasedState s t ok).executing, u.id ≠ fid := by
      rw [f11]
      intro u hu
      exact d3 u (List.mem_of_mem_erase hu)
    have hsdr : (releasedState s t ok).isShuttingDown = true := by
      rw [f5]; exact d1
    obtain ⟨p1, p2, p3, p4⟩ := processQueueGo_dead
      (releasedState s t ok).pendingQueue fid (releasedState s t ok)
      hqr rfl hfut hir her
    exact ⟨(processQueueGo_isShuttingDown _ _).trans hsdr, p3, p4, p2, p1⟩
  | finallyHook k2 g2 hm2 hs2 =>
    exact ⟨d1, d2, d3, d4, d5⟩
  | shutdown =>
    refine ⟨rfl, ?_, d3, d4, d5⟩
    intro t ht
    exact absurd ht (List.not_mem_nil t)

lemma dead_reach {fid : Nat} {a s : SchedulerState} (h : Reach a s)
    (ha : Dead fid a) : Dead fid s := by
  induction h with
  | refl => exact ha
  | tail _ hstep ih => exact dead_step ih hstep

/-- A dead task's admission-map entry: since its future can never
settle, the `finally` hook that would remove the entry can never fire,
and no other operation touches it. -/
def Leaked (key : String) (fid : Nat) (s : SchedulerState) : Prop :=
  Dead fid s ∧ lookupKey s.runningTasks key = some fid

lemma leaked_step {key : String} {fid : Nat} {s s' : SchedulerState}
    (hl : Leaked key fid s) (hstep : Step s s') : Leaked key fid s' := by
  obtain ⟨hd, hm⟩ := hl
  refine ⟨dead_step hd hstep, ?_⟩
  cases hstep with
  | enqueue k2 =>
    rw [enqueue_of_shutdown s k2 hd.1]
    exact hm
  | complete t ok ht =>
    show lookupKey (processQueue (releasedState s t ok)).runningTasks key =
      some fid
    rw [show (processQueue (releasedState s t ok)).runningTasks =
        (releasedState s t ok).runningTasks from
      processQueueGo_runningTasks _ _]
    obtain ⟨f1, f2, f3, f4, _⟩ := releasedState_fields s t ok
    rw [f4]
    exact hm
  | finallyHook k2 g2 hm2 hs2 =>
    show lookupKey (eraseKey s.runningTasks k2) key = some fid
    by_cases hk : k2 = key
    · subst hk
      have hff : g2 = fid := by
        rw [hm] at hm2
        exact (Option.some.inj hm2).symm
      rw [hff] at hs2
      exact (hs2 hd.2.2.2.2).elim
    · rw [lookupKey_eraseKey_ne s.runningTasks key k2 hk]
      exact hm
  | shutdown => exact hm

lemma leaked_reach {key : String} {fid : Nat} {a s : SchedulerState}
    (h : Reach a s) (ha : Leaked key fid a) : Leaked key fid s := by
  induction h with
  | refl => exact ha
  | tail _ hstep ih => exact leaked_step ih hstep

lemma good_reach {a s : SchedulerState} (h : Reach a s) (ha : Good a) :
    Good s := by
  induction h with
  | refl => exact ha
  | tail _ hstep ih => exact good_step ih hstep

lemma step_concurrencyLimit {s s' : SchedulerState} (h : Step s s') :
    s'.concurrencyLimit = s.concurrencyLimit := by
  cases h with
  | enqueue key =>
    by_cases hsd : s.isShuttingDown
    · rw [enqueue_of_shutdown s key hsd]
    · simp only [Bool.not_eq_true] at hsd
      rcases hlk : lookupKey s.runningTasks key with _ | fid
      · rw [enqueue_of_fresh s key hsd hlk]
        exact processQueueGo_concurrencyLimit _ _
      · rw [enqueue_of_dedup s key fid hsd hlk]
  | complete t ok ht =>
    show (processQueueGo _ _).concurrencyLimit = s.concurrencyLimit
    rw [processQueueGo_concurrencyLimit]
    cases ok <;> rfl
  | finallyHook key fid hm hs => rfl
  | shutdown => rfl

lemma reach_concurrencyLimit {a s : SchedulerState} (h : Reach a s) :
    s.concurrencyLimit = a.concurrencyLimit := by
  induction h with
  | refl => rfl
  | tail _ hstep ih => rw [step_concurrencyLimit hstep, ih]

/-! ## Lemmas about the retry loop -/

lemma retryGo_invocations_le (task : Nat → Except String α)
    (delayFn : Nat → ℤ) :
    ∀ rem attempt,
      (retryGo task delayFn attempt rem).invocations ≤ rem + 1 := by
  intro rem
  induction rem with
  | zero =>
    intro attempt
    cases h : task attempt <;> simp [retryGo, h]
  | succ n ih =>
    intro attempt
    cases h : task attempt with
    | ok v => simp [retryGo, h]
    | error e =>
      simp only [retryGo, h]
      have := ih (attempt + 1)
      omega

lemma retryGo_allfail (task : Nat → Except String α) (delayFn : Nat → ℤ) :
    ∀ rem attempt,
      (∀ k, attempt ≤ k → k ≤ attempt + rem → ∃ e, task k = Except.error e) →
      (retryGo task delayFn attempt rem).invocations = rem + 1 ∧
      (retryGo task delayFn attempt rem).result = task (attempt + rem) := by
  intro rem
  induction rem with
  | zero =>
    intro attempt hfail
    obtain ⟨e, he⟩ := hfail attempt (le_refl _) (by omega)
    simp [retryGo, he]
  | succ n ih =>
    intro attempt hfail
    obtain ⟨e, he⟩ := hfail attempt (le_refl _) (by omega)
    have ihx := ih (attempt + 1)
      (fun k hk1 hk2 => hfail k (by omega) (by omega))
    simp only [retryGo, he]
    refine ⟨?_, ?_⟩
    · simp only [ihx.1]
    · rw [show (⟨(retryGo task delayFn (attempt + 1) n).result,
          (retryGo task delayFn (attempt + 1) n).invocations + 1,
          (retryGo task delayFn (attempt + 1) n).retried + 1,
          delayFn attempt :: (retryGo task delayFn (attempt + 1) n).delays⟩
            : RetryTrace α).result =
          (retryGo task delayFn (attempt + 1) n).result from rfl]
      rw [ihx.2]
      congr 1
      omega

lemma retryGo_retried (task : Nat → Except String α) (delayFn : Nat → ℤ) :
    ∀ rem attempt,
      (retryGo task delayFn attempt rem).retried + 1 =
        (retryGo task delayFn attempt rem).invocations := by
  intro rem
  induction rem with
  | zero =>
    intro attempt
    cases h : task attempt <;> simp [retryGo, h]
  | succ n ih =>
    intro attempt
    cases h : task attempt with
    | ok v => simp [retryGo, h]
    | error e =>
      simp only [retryGo, h]
      have := ih (attempt + 1)
      omega

/-! ## Lemmas about the backoff computation -/

lemma round_max_zero (x : ℚ) : round (max 0 x) = max 0 (round x) := by
  have hhalf : ⌊(1 : ℚ) / 2⌋ = 0 := by
    rw [Int.floor_eq_zero_iff, Set.mem_Ico]
    norm_num
  rcases le_total x 0 with hx | hx
  · rw [max_eq_left hx, round_zero]
    have h1 : round x ≤ 0 := by
      rw [round_eq]
      calc ⌊x + 1 / 2⌋ ≤ ⌊(1 : ℚ) / 2⌋ := Int.floor_mono (by linarith)
        _ = 0 := hhalf
    rw [max_eq_left h1]
  · rw [max_eq_right hx]
    have h1 : 0 ≤ round x := by
      rw [round_eq]
      calc (0 : ℤ) = ⌊(1 : ℚ) / 2⌋ := hhalf.symm
        _ ≤ ⌊x + 1 / 2⌋ := Int.floor_mono (by linarith)
    rw [max_eq_right h1]

/-- With `jitter = 0` and `baseDelay = 1000` the computed delay is the
pure exponential `1000 * 2 ^ attempt`, whatever `Math.random()` gave. -/
lemma calculateRetryDelay_1000_0 (attempt : Nat) (m : Nat) (r : ℚ) :
    calculateRetryDelay attempt ⟨m, 1000, 0⟩ r = 1000 * 2 ^ attempt := by
  unfold calculateRetryDelay
  simp only [mul_zero, add_zero]
  have hpos : (0 : ℚ) ≤ 1000 * 2 ^ attempt := by positivity
  rw [max_eq_right hpos]
  rw [show ((1000 : ℚ) * 2 ^ attempt) = ((1000 * 2 ^ attempt : ℤ) : ℚ) by
    push_cast; ring]
  exact round_intCast _

/-- The delay the source computes, `round(max(0, d + (r*2-1)*(d*j)))`,
equals the spec's `max(0, round(d + u*d*j))` with `u = 2r - 1`. -/
lemma calculateRetryDelay_formula (attempt : Nat)
    (config : ResolvedTaskConfig) (r : ℚ) :
    calculateRetryDelay attempt config r =
      max 0 (round (config.baseDelay * 2 ^ attempt +
        (2 * r - 1) * (config.baseDelay * 2 ^ attempt) * config.jitter)) := by
  show round (max 0 (config.baseDelay * 2 ^ attempt +
    (r * 2 - 1) * (config.baseDelay * 2 ^ attempt * config.jitter))) = _
  rw [show config.baseDelay * 2 ^ attempt +
      (r * 2 - 1) * (config.baseDelay * 2 ^ attempt * config.jitter) =
      config.baseDelay * 2 ^ attempt +
      (2 * r - 1) * (config.baseDelay * 2 ^ attempt) * config.jitter by ring]
  exact round_max_zero _

/-! ## A concrete run exercising the shutdown drain

`concurrencyLimit = 1`; `enqueue "a"` dispatches immediately (future id
0 starts executing), `enqueue "b"` is queued behind it (future id 1),
then `shutdown()` drains the queue. -/

def scenarioAfterShutdown : SchedulerState :=
  shutdownStep ((enqueue ((enqueue (initState 1) "a").1) "b").1)

/-- Repeated same-key `enqueue` calls, state after `n` of them. -/
def dedupIter (key : String) : Nat → SchedulerState → SchedulerState
  | 0, s => s
  | n + 1, s => dedupIter key n (enqueue s key).1

lemma dedupIter_eq (key : String) (fid : Nat) :
    ∀ (n : Nat) (s : SchedulerState),
      s.isShuttingDown = false →
      lookupKey s.runningTasks key = some fid →
      dedupIter key n s =
        { s with stats :=
            { s.stats with deduplicated := s.stats.deduplicated + n } } := by
  intro n
  induction n with
  | zero =>
    intro s _ _
    rfl
  | succ m ih =>
    intro s hsd hlk
    show dedupIter key m (enqueue s key).1 = _
    have h1 : (enqueue s key).1 =
        { s with stats :=
            { s.stats with deduplicated := s.stats.deduplicated + 1 } } := by
      rw [enqueue_of_dedup s key fid hsd hlk]
    rw [h1]
    rw [ih { s with stats :=
        { s.stats with deduplicated := s.stats.deduplicated + 1 } } hsd hlk]
    show ({ s with stats :=
        { s.stats with
          deduplicated := s.stats.deduplicated + 1 + m } } : SchedulerState) = _
    rw [show s.stats.deduplicated + 1 + m = s.stats.deduplicated + (m + 1)
      from by omega]

/-! ## Claim theorems -/

/-- C1: the spec says every task still in the pending queue when
`shutdown()` runs has its caller-visible future rejected with
`TaskCancelled`, `cancelled` is incremented by the drained count, and
the drained task functions are never invoked.  The code increments
`cancelled` correctly and never invokes the drained functions, but it
only discards the queued thunks — the `reject` callbacks live inside
the dropped closures and are never called — so in the concrete run the
drained task's future is still pending after shutdown and stays pending
(and the function stays uninvoked) in every state reachable from there:
the promised `TaskCancelled` rejection never happens. -/
theorem shutdown_drained_future_never_settles :
    scenarioAfterShutdown.stats.cancelled = 1 ∧
    scenarioAfterShutdown.drainedLog = [1] ∧
    lookupFuture scenarioAfterShutdown.futures 1 =
      some FutureState.pending ∧
    1 ∉ scenarioAfterShutdown.invoked ∧
    (∀ s', Reach scenarioAfterShutdown s' →
      lookupFuture s'.futures 1 = some FutureState.pending ∧
        1 ∉ s'.invoked) := by
  have hdead : Dead 1 scenarioAfterShutdown := by
    unfold Dead
    decide
  refine ⟨by decide, by decide, by decide, by decide, ?_⟩
  intro s' h
  have hd := dead_reach h hdead
  exact ⟨hd.2.2.2.2, hd.2.2.2.1⟩

theorem shutdown_drained_future_never_settles_witness :
    lookupFuture scenarioAfterShutdown.futures 1 =
      some FutureState.pending ∧
    1 ∉ scenarioAfterShutdown.invoked :=
  shutdown_drained_future_never_settles.2.2.2.2 scenarioAfterShutdown
    (Reach.refl _)

/-- C2: the spec says a key is in the admission map iff a task with
that key is queued or executing, the entry being removed exactly once
when that task's future settles — including tasks drained by shutdown.
In the concrete run, after shutdown drains queued task `"b"`, no task
with key `"b"` is queued or executing, yet the key is still mapped; and
because the drained future never settles, the `finally` hook that would
remove the entry can never fire: the entry survives every reachable
successor state. -/
theorem admission_entry_leaks_after_drain :
    lookupKey scenarioAfterShutdown.runningTasks "b" = some 1 ∧
    (∀ t ∈ scenarioAfterShutdown.pendingQueue, t.key ≠ "b") ∧
    (∀ t ∈ scenarioAfterShutdown.executing, t.key ≠ "b") ∧
    (∀ s', Reach scenarioAfterShutdown s' →
      lookupKey s'.runningTasks "b" = some 1) := by
  have hleak : Leaked "b" 1 scenarioAfterShutdown := by
    refine ⟨?_, by decide⟩
    unfold Dead
    decide
  refine ⟨by decide, by decide, by decide, ?_⟩
  intro s' h
  exact (leaked_reach h hleak).2

theorem admission_entry_leaks_after_drain_witness :
    lookupKey scenarioAfterShutdown.runningTasks "b" = some 1 :=
  admission_entry_leaks_after_drain.2.2.2 scenarioAfterShutdown
    (Reach.refl _)

/-- C3: over every sequence of enqueue, dispatch, completion and
shutdown steps from a scheduler created with `concurrencyLimit ≥ 1`,
`runningTasksCount` (reported as `stats.running`) never exceeds the
limit: the dispatch loop is the only path that starts a task, and it
increments the count only under the `running < limit` guard. -/
theorem running_never_exceeds_limit (limit : Nat) (s : SchedulerState)
    (_hlim : 1 ≤ limit) (h : Reach (initState limit) s) :
    s.stats.running ≤ limit ∧ s.runningTasksCount ≤ limit := by
  have hg := good_reach h (good_initState limit)
  have hl : s.concurrencyLimit = limit := reach_concurrencyLimit h
  refine ⟨?_, hl ▸ hg.1⟩
  rw [hg.2.1]
  exact hl ▸ hg.1

theorem running_never_exceeds_limit_witness :
    (initState 1).stats.running ≤ 1 ∧
    (initState 1).runningTasksCount ≤ 1 :=
  running_never_exceeds_limit 1 (initState 1) (by decide) (Reach.refl _)

/-- C4: while a key is in the admission map and the scheduler is not
shutting down, another `enqueue` with that key returns the very future
the original admission registered (`EnqueueResult.dedup fid`), bumps
`deduplicated` by one, and changes nothing else — in particular the
supplied task function is never queued or invoked.  Iterating: `n`
further same-key calls bump `deduplicated` by exactly `n` (so
`callCount` concurrent callers produce `callCount - 1` dedups) while
the rest of the state — queue, executing set, futures, admission map,
dispatch log — is untouched, so the underlying task function executes
exactly once and every caller waits on the same settlement of the
shared future `fid`. -/
theorem enqueue_dedup_shares_future (s : SchedulerState) (key : String)
    (fid : Nat) (n : Nat)
    (hsd : s.isShuttingDown = false)
    (hlk : lookupKey s.runningTasks key = some fid) :
    (enqueue s key).2 = EnqueueResult.dedup fid ∧
    (enqueue s key).1 =
      { s with stats :=
          { s.stats with deduplicated := s.stats.deduplicated + 1 } } ∧
    dedupIter key n s =
      { s with stats :=
          { s.stats with deduplicated := s.stats.deduplicated + n } } := by
  refine ⟨?_, ?_, dedupIter_eq key fid n s hsd hlk⟩
  · rw [enqueue_of_dedup s key fid hsd hlk]
  · rw [enqueue_of_dedup s key fid hsd hlk]

theorem enqueue_dedup_shares_future_witness :
    (enqueue (enqueue (initState 2) "k").1 "k").2 =
      EnqueueResult.dedup 0 ∧
    dedupIter "k" 3 (enqueue (initState 2) "k").1 =
      { (enqueue (initState 2) "k").1 with stats :=
          { (enqueue (initState 2) "k").1.stats with
            deduplicated :=
              (enqueue (initState 2) "k").1.stats.deduplicated + 3 } } := by
  obtain ⟨w1, w2, w3⟩ := enqueue_dedup_shares_future
    (enqueue (initState 2) "k").1 "k" 0 3 (by decide) (by decide)
  exact ⟨w1, w3⟩

/-- C5: dispatch is strict FIFO over admission: in every reachable
state the ghost admission log is exactly the dispatch log (`invoked`,
in dispatch order), followed by the shutdown-drained ids, followed by
the ids still queued.  So the dispatched tasks always form an initial
segment of the admission order — a task admitted earlier is never
dispatched after one admitted later. -/
theorem dispatch_follows_admission_order (limit : Nat)
    (s : SchedulerState) (h : Reach (initState limit) s) :
    s.admissionLog =
      s.invoked ++ s.drainedLog ++ s.pendingQueue.map QueuedTask.id :=
  (good_reach h (good_initState limit)).2.2.2.2

theorem dispatch_follows_admission_order_witness :
    ((enqueue ((enqueue (initState 1) "x").1) "y").1).admissionLog =
      ((enqueue ((enqueue (initState 1) "x").1) "y").1).invoked ++
        ((enqueue ((enqueue (initState 1) "x").1) "y").1).drainedLog ++
        ((enqueue ((enqueue (initState 1) "x").1) "y").1).pendingQueue.map
          QueuedTask.id :=
  dispatch_follows_admission_order 1 _
    (Reach.tail (Reach.tail (Reach.refl _) (Step.enqueue "x"))
      (Step.enqueue "y"))

/-- C6: the retry loop invokes the task function at most
`maxRetries + 1` times; when every attempt fails it invokes it exactly
`maxRetries + 1` times and finishes with the error of the final
attempt (which `executeTask` then rejects the caller's future with);
and with `maxRetries = 0` it makes exactly one invocation and never
increments `retried`. -/
theorem retry_attempt_bound {α : Type} (task : Nat → Except String α)
    (config : ResolvedTaskConfig) (rand : Nat → ℚ) :
    (executeWithRetry task config rand).invocations ≤
      config.maxRetries + 1 ∧
    ((∀ k, 1 ≤ k → k ≤ config.maxRetries + 1 →
        ∃ e, task k = Except.error e) →
      (executeWithRetry task config rand).invocations =
        config.maxRetries + 1 ∧
      (executeWithRetry task config rand).result =
        task (config.maxRetries + 1)) ∧
    (config.maxRetries = 0 →
      (executeWithRetry task config rand).invocations = 1 ∧
      (executeWithRetry task config rand).retried = 0) := by
  unfold executeWithRetry
  refine ⟨retryGo_invocations_le task _ config.maxRetries 1, ?_, ?_⟩
  · intro hfail
    have hx := retryGo_allfail task
      (fun attempt => calculateRetryDelay (attempt - 1) config (rand attempt))
      config.maxRetries 1 (fun k hk1 hk2 => hfail k hk1 (by omega))
    refine ⟨hx.1, ?_⟩
    rw [hx.2]
    congr 1
    omega
  · intro h0
    rw [h0]
    cases h : task 1 <;> simp [retryGo, h]

theorem retry_attempt_bound_witness :
    (executeWithRetry (fun _ => (Except.error "boom" : Except String Nat))
        ⟨2, 1000, 0⟩ (fun _ => 0)).invocations = 3 ∧
    (executeWithRetry (fun _ => (Except.error "boom" : Except String Nat))
        ⟨2, 1000, 0⟩ (fun _ => 0)).result = Except.error "boom" := by
  have h := (retry_attempt_bound
    (fun _ => (Except.error "boom" : Except String Nat))
    ⟨2, 1000, 0⟩ (fun _ => 0)).2.1 (fun k _ _ => ⟨"boom", rfl⟩)
  exact ⟨h.1, h.2⟩

/-- C7: after each failed non-final attempt `retried` is incremented
(so `retried + 1 = invocations` always) and the delay slept before
attempt `n + 1` is `calculateRetryDelay (n - 1)`, which equals
`max(0, round(d + u * d * jitter))` with `d = baseDelay * 2 ^ (n - 1)`
and `u = 2 * Math.random() - 1 ∈ [-1, 1]`.  With `baseDelay = 1000`
and `jitter = 0` the delays slept before attempts 2, 3, 4 are exactly
1000, 2000, 4000 ms, and a task succeeding on attempt 2 sleeps exactly
the one delay (1000 ms) and never waits for a further one. -/
theorem retry_backoff_formula :
    (∀ (attempt : Nat) (config : ResolvedTaskConfig) (r : ℚ),
      calculateRetryDelay attempt config r =
        max 0 (round (config.baseDelay * 2 ^ attempt +
          (2 * r - 1) * (config.baseDelay * 2 ^ attempt) * config.jitter))) ∧
    (∀ r : ℚ, 0 ≤ r → r ≤ 1 → -1 ≤ 2 * r - 1 ∧ 2 * r - 1 ≤ 1) ∧
    (∀ (task : Nat → Except String Nat) (config : ResolvedTaskConfig)
        (rand : Nat → ℚ),
      (executeWithRetry task config rand).retried + 1 =
        (executeWithRetry task config rand).invocations) ∧
    (∀ rand : Nat → ℚ,
      (executeWithRetry (fun _ => (Except.error "boom" : Except String Nat))
          ⟨3, 1000, 0⟩ rand).delays = [1000, 2000, 4000]) ∧
    (∀ rand : Nat → ℚ,
      (executeWithRetry
          (fun k => if k = 1 then (Except.error "boom" : Except String Nat)
                    else Except.ok 42)
          ⟨3, 1000, 0⟩ rand).delays = [1000]) := by
  refine ⟨calculateRetryDelay_formula, ?_, ?_, ?_, ?_⟩
  · intro r h0 h1
    constructor <;> linarith
  · intro task config rand
    exact retryGo_retried task _ config.maxRetries 1
  · intro rand
    show [calculateRetryDelay 0 ⟨3, 1000, 0⟩ (rand 1),
          calculateRetryDelay 1 ⟨3, 1000, 0⟩ (rand 2),
          calculateRetryDelay 2 ⟨3, 1000, 0⟩ (rand 3)] =
      [1000, 2000, 4000]
    rw [calculateRetryDelay_1000_0 0 3 (rand 1),
        calculateRetryDelay_1000_0 1 3 (rand 2),
        calculateRetryDelay_1000_0 2 3 (rand 3)]
    norm_num
  · intro rand
    show [calculateRetryDelay 0 ⟨3, 1000, 0⟩ (rand 1)] = [1000]
    rw [calculateRetryDelay_1000_0 0 3 (rand 1)]
    norm_num

theorem retry_backoff_formula_witness :
    calculateRetryDelay 0 ⟨3, 1000, 0⟩ (1 / 2) =
      max 0 (round ((⟨3, 1000, 0⟩ : ResolvedTaskConfig).baseDelay * 2 ^ 0 +
        (2 * (1 / 2) - 1) *
          ((⟨3, 1000, 0⟩ : ResolvedTaskConfig).baseDelay * 2 ^ 0) *
          (⟨3, 1000, 0⟩ : ResolvedTaskConfig).jitter)) ∧
    (executeWithRetry (fun _ => (Except.error "boom" : Except String Nat))
        ⟨3, 1000, 0⟩ (fun _ => 1 / 2)).delays = [1000, 2000, 4000] :=
  ⟨retry_backoff_formula.1 0 ⟨3, 1000, 0⟩ (1 / 2),
   retry_backoff_formula.2.2.2.1 (fun _ => 1 / 2)⟩

/-- C8: the claim says a config field that is absent *or present with
value `undefined`* keeps its default.  Absent fields do keep their
defaults, but JavaScript object spread copies own properties whose
value is `undefined`, so `{ maxRetries: undefined }` — exactly what
`SchedulerController.enqueueTask` passes when the request omits
`maxRetries` — overrides the default `3` with `undefined` in the merged
config (despite its `Required<TaskConfig>` type). -/
theorem merge_undefined_overrides_default :
    (mergeTaskConfig
        (some { maxRetries := some JsNum.undef })).maxRetries =
      JsNum.undef ∧
    (mergeTaskConfig
        (some { maxRetries := some JsNum.undef })).maxRetries ≠
      defaultTaskConfig.maxRetries ∧
    defaultTaskConfig.maxRetries = JsNum.val 3 ∧
    mergeTaskConfig none = defaultTaskConfig ∧
    (mergeTaskConfig (some { })).maxRetries = JsNum.val 3 ∧
    (mergeTaskConfig
        (some { baseDelay := some (JsNum.val 2000) })).maxRetries =
      JsNum.val 3 := by
  refine ⟨rfl, ?_, rfl, rfl, rfl, rfl⟩
  decide

/-- C9: re-invoking `shutdown()` while already shutting down is a state
no-op — the flag is already set, the queue is already empty (enqueue
admits nothing during shutdown), so the drain adds `0` to `cancelled`
and changes no counters — and its wait condition is the same predicate
`runningTasksCount = 0` on the same state, so the second caller
observes the same resolution as the first. -/
theorem shutdown_idempotent (limit : Nat) (s : SchedulerState)
    (h : Reach (initState limit) s) (hsd : s.isShuttingDown = true) :
    shutdownStep s = s := by
  have hg := good_reach h (good_initState limit)
  obtain ⟨hq, hp⟩ := hg.2.2.1 hsd
  obtain ⟨c, r, q, m, sd, st, f, e, n, al, inv, dl⟩ := s
  obtain ⟨t1, t2, t3, t4, t5, t6, t7, t8⟩ := st
  have hq' : q = [] := hq
  have hp' : t8 = 0 := hp
  have hsd' : sd = true := hsd
  subst hq'
  subst hp'
  subst hsd'
  simp [shutdownStep]

theorem shutdown_idempotent_witness :
    shutdownStep (shutdownStep (initState 1)) = shutdownStep (initState 1) :=
  shutdown_idempotent 1 (shutdownStep (initState 1))
    (Reach.tail (Reach.refl _) Step.shutdown) rfl

/-- C10: constructing a `SchedulerService` with no config argument
yields `concurrencyLimit = 10` — the same scheduler the application
module wires with `new SchedulerService({ concurrencyLimit: 10 })` —
and the concurrency gate therefore holds with limit 10 for every state
reachable from a default-constructed scheduler. -/
theorem default_constructor_limit_ten :
    (mkSchedulerService none).concurrencyLimit = 10 ∧
    mkSchedulerService none = schedulerModuleService ∧
    (∀ s, Reach (mkSchedulerService none) s → s.stats.running ≤ 10) := by
  refine ⟨rfl, rfl, ?_⟩
  intro s h
  have hg := good_reach h (good_initState 10)
  have hl : s.concurrencyLimit = 10 := reach_concurrencyLimit h
  rw [hg.2.1]
  exact le_of_le_of_eq hg.1 hl

theorem default_constructor_limit_ten_witness :
    (mkSchedulerService none).stats.running ≤ 10 :=
  default_constructor_limit_ten.2.2 (mkSchedulerService none)
    (Reach.refl _)

end Scheduler
